import Mathlib

/-!
A shallow embedding of the charmed-kubeflow-helpers reconciliation core:
the status exceptions (`exceptions/_status_exceptions.py`), the leadership
precondition (`utilities/_check_leadership.py`) and the
`KubernetesResourceHandler` methods `resource_status` and
`reconcile_resources` (`lightkube/utilities/_manifest_charm_extension.py`).
The health-aggregation helpers `check_resources` and `get_first_worst_error`
and the `ReconcileError` class live in modules that are not part of the
sources of this development; they are modelled from the specification and
marked as such in their doc comments.  External collaborators (the ops
status classes, the lightkube cluster client) are modelled at their
interface boundary.
-/

namespace CharmedKubeflowHelpers

/-- Charm status values from ops.model (ActiveStatus, WaitingStatus,
MaintenanceStatus, BlockedStatus), each carrying a message string; a status
constructed with no argument carries the empty message. -/
inductive CharmStatus where
  | active (msg : String)
  | waiting (msg : String)
  | maintenance (msg : String)
  | blocked (msg : String)
  deriving DecidableEq, Repr

/-- The ops status classes used as `status_type` values: `ActiveStatus` as a
constructor taking the message. -/
def ActiveStatus : String → CharmStatus := CharmStatus.active

/-- `WaitingStatus` as a constructor taking the message. -/
def WaitingStatus : String → CharmStatus := CharmStatus.waiting

/-- `MaintenanceStatus` as a constructor taking the message. -/
def MaintenanceStatus : String → CharmStatus := CharmStatus.maintenance

/-- `BlockedStatus` as a constructor taking the message. -/
def BlockedStatus : String → CharmStatus := CharmStatus.blocked

/-- Observer: is this status a WaitingStatus? -/
def CharmStatus.isWaiting : CharmStatus → Bool
  | .waiting _ => true
  | _ => false

/-- Modelled from the spec: the severity order on verdicts,
Healthy < Waiting < Maintenance < Blocked (spec section 3).  The reduction
that consumes this order (`get_first_worst_error` in `_check_resources.py`)
is not among the sources of this development, so the order is taken from the
specification's words. -/
def severity : CharmStatus → Nat
  | .active _ => 0
  | .waiting _ => 1
  | .maintenance _ => 2
  | .blocked _ => 3

/-- `ErrorWithStatus` (`exceptions/_status_exceptions.py`): an exception
raised when the raiser has an opinion on the resultant charm status.
`__init__(msg, status_type)` stores `str(msg)` both as the base Exception
message (`excMessage` here) and as `self.msg`, and keeps `status_type`. -/
structure ErrorWithStatus where
  excMessage : String
  msg : String
  status_type : String → CharmStatus

/-- The constructor body of `ErrorWithStatus`:
`super().__init__(str(msg)); self.msg = str(msg); self.status_type = status_type`.
`toString` models Python `str()` applied to a possibly non-string `msg`. -/
def ErrorWithStatus.ofAny {α : Type} [ToString α] (msg : α)
    (status_type : String → CharmStatus) : ErrorWithStatus :=
  ⟨toString msg, toString msg, status_type⟩

/-- The `status` property of `ErrorWithStatus`:
`return self.status_type(self.msg)`. -/
def ErrorWithStatus.status (e : ErrorWithStatus) : CharmStatus :=
  e.status_type e.msg

/-- `LeadershipError(msg, status_type)` (`exceptions/_status_exceptions.py`):
its `__init__` delegates to `ErrorWithStatus.__init__` unchanged, with
Python default arguments `msg="Waiting for leadership"` and
`status_type=WaitingStatus`. -/
def LeadershipError (msg : String) (status_type : String → CharmStatus) :
    ErrorWithStatus :=
  ErrorWithStatus.ofAny msg status_type

/-- `LeadershipError()` with both arguments defaulted, which is how
`is_leader` raises it. -/
def LeadershipError.default : ErrorWithStatus :=
  LeadershipError "Waiting for leadership" WaitingStatus

/-- `is_leader(charm, raise_if_not_leader=True)`
(`utilities/_check_leadership.py`), with the charm abstracted to the boolean
`charm.unit.is_leader()`; Python `raise` is modelled by `Except.error`. -/
def is_leader (unit_is_leader : Bool) (raise_if_not_leader : Bool) :
    Except ErrorWithStatus Bool :=
  if !unit_is_leader then
    if raise_if_not_leader then Except.error LeadershipError.default
    else Except.ok false
  else Except.ok true

/-- Observer on `Except`: did the call raise (propagate an exception) rather
than return a value? -/
def exceptRaised {ε α : Type} : Except ε α → Bool
  | .error _ => true
  | .ok _ => false

/-- Modelled from the spec: the possible outcomes of checking one managed
resource against the live cluster (ResourceChecker, spec section 4.2):
the resource satisfies its readiness criteria (`ok`), the resource is absent
or not ready (`notReady`, a Waiting-level cause), or the lookup itself
failed for a transport/observability reason (`transportError`).  The real
per-resource checker lives in `_check_resources.py`, which is not among the
sources of this development. -/
inductive CheckOutcome where
  | ok
  | notReady (cause : String)
  | transportError (cause : String)
  deriving DecidableEq, Repr

/-- Modelled from the spec: how one check outcome is turned into an optional
error in `check_resources` (HealthAggregator, spec sections 4.2 and 4.3):
a healthy resource yields no error, a not-ready resource a Waiting-level
cause, and a transport failure is recorded as a Blocked-level
could-not-determine-status cause instead of propagating. -/
def outcome_to_error : CheckOutcome → Option ErrorWithStatus
  | .ok => none
  | .notReady c => some (ErrorWithStatus.ofAny c WaitingStatus)
  | .transportError c =>
      some (ErrorWithStatus.ofAny (c ++ ": could not determine status") BlockedStatus)

/-- Modelled from the spec: `check_resources(client, resources)` from
`_check_resources.py` (not among the sources of this development), the
HealthAggregator of spec section 4.3.  It runs the per-resource check over
every resource in declaration order, producing one optional error per
resource, and reports `charm_ok` exactly when no resource produced an
error.  The cluster reader is abstracted to the list of per-resource check
outcomes. -/
def check_resources (outcomes : List CheckOutcome) :
    Bool × List (Option ErrorWithStatus) :=
  let errors := outcomes.map outcome_to_error
  (errors.all Option.isNone, errors)

/-- Modelled from the spec: `get_first_worst_error(errors)` from
`_check_resources.py` (not among the sources of this development), the
SeverityModel reduction of spec section 4.1: it returns the first error of
maximal severity under Healthy < Waiting < Maintenance < Blocked, or `none`
on empty input. -/
def get_first_worst_error : List ErrorWithStatus → Option ErrorWithStatus
  | [] => none
  | e :: es =>
    match get_first_worst_error es with
    | none => some e
    | some w => if severity e.status < severity w.status then some w else some e

/-- Modelled from the spec: `worstOf(verdicts)` (SeverityModel, spec
section 4.1) lifted to bare verdicts: Healthy on empty input, otherwise the
first verdict of maximal severity in input order. -/
def worstOf : List CharmStatus → CharmStatus
  | [] => CharmStatus.active ""
  | v :: vs =>
    let w := worstOf vs
    if severity v < severity w then w else v

/-- The result of one `resource_status` pass: the returned status, the list
of causes logged (the non-None errors), and how many times the rendering
collaborator (`render_manifests`) and the cluster-reading collaborator
(`check_resources`) were invoked during the pass. -/
structure StatusPassResult where
  status : CharmStatus
  causes : List ErrorWithStatus
  renderCalls : Nat
  checkCalls : Nat

/-- `KubernetesResourceHandler.resource_status()` with the default
`resources=None` (`lightkube/utilities/_manifest_charm_extension.py`,
lines 53-88): the leadership precondition is checked first and a raised
`LeadershipError` is caught and turned into its status; otherwise the
manifests are rendered and `check_resources` is consulted; on `charm_ok`
the status is `ActiveStatus()`, otherwise the non-None errors are logged
and the status of the first worst error is returned.  The function is total:
a status pass always returns a status.  The charm is abstracted to its
leadership boolean and the rendered-resources/cluster pair to the list of
per-resource check outcomes. -/
def resource_status (unit_is_leader : Bool) (outcomes : List CheckOutcome) :
    StatusPassResult :=
  match is_leader unit_is_leader true with
  | .error e => ⟨e.status, [], 0, 0⟩
  | .ok _ =>
    let checked := check_resources outcomes
    if checked.1 then ⟨ActiveStatus "", [], 1, 1⟩
    else
      let errs := checked.2.filterMap id
      let status :=
        match get_first_worst_error errs with
        | some w => w.status
        | none => ActiveStatus ""
      ⟨status, errs, 1, 1⟩

/-- A lightkube `ApiError`, abstracted to its status code and message. -/
structure ApiError where
  code : Nat
  message : String
  deriving DecidableEq, Repr

/-- The fixed remediation message `reconcile_resources` uses when the apply
is denied with a 403 (`_manifest_charm_extension.py`, lines 135-138). -/
def reconcile_remediation_msg : String :=
  "Cannot create required resources.  Charm may be missing `--trust`"

/-- Modelled from the spec: `ReconcileError` from `lightkube/exceptions`
(not among the sources of this development), the status-bearing
ReconcileFailure of spec section 4.4: constructed from a message and a
status type exactly like `ErrorWithStatus`, so that its `status` property
carries the verdict. -/
def ReconcileError (msg : String) (status_type : String → CharmStatus) :
    ErrorWithStatus :=
  ErrorWithStatus.ofAny msg status_type

/-- How a `reconcile_resources` call terminates: success, a raised
`ReconcileError`, or a re-raised `ApiError`. -/
inductive ReconcileOutcome where
  | success
  | reconcileError (e : ErrorWithStatus)
  | apiError (e : ApiError)

/-- The error handling of `KubernetesResourceHandler.reconcile_resources`
(`_manifest_charm_extension.py`, lines 122-141), as a function of the
outcome of the cluster writer's `apply_many` (none when the apply
succeeded, `some e` when it raised `ApiError e`): a 403 code is relabelled
to a `ReconcileError` with the fixed remediation message and
`BlockedStatus`; any other `ApiError` is re-raised unchanged. -/
def reconcile_resources (applyResult : Option ApiError) : ReconcileOutcome :=
  match applyResult with
  | none => ReconcileOutcome.success
  | some e =>
    if e.code = 403 then
      ReconcileOutcome.reconcileError
        (ReconcileError reconcile_remediation_msg BlockedStatus)
    else
      ReconcileOutcome.apiError e

/-- The identifier of a managed resource: kind, optional namespace and
name. -/
structure ResourceId where
  kind : String
  ns : Option String
  name : String
  deriving DecidableEq, Repr

/-- A managed resource: its identifier plus its desired specification
body. -/
structure Resource where
  id : ResourceId
  spec : String
  deriving DecidableEq, Repr

/-- The live cluster state, as a map from resource identifier to the stored
specification (none when no such object exists). -/
abbrev ClusterState : Type := ResourceId → Option String

/-- Modelled from the spec: the cluster writer's create-or-update of one
resource (spec sections 4.4 and 6): the object with the resource's
identifier is created or overwritten with the desired specification and
every other object is untouched. -/
def applyOne (s : ClusterState) (r : Resource) : ClusterState :=
  fun k => if k = r.id then some r.spec else s k

/-- Modelled from the spec: the cluster writer collaborator
`apply_many(resources)` (spec section 6) used by `reconcile_resources`:
create-or-update of every resource in the desired set, in order. -/
def apply_many (s : ClusterState) (rs : List Resource) : ClusterState :=
  rs.foldl applyOne s

/-- The specification of the last resource in the list carrying the given
identifier, if any: the value `apply_many` leaves at that identifier. -/
def lastSpec (rs : List Resource) (k : ResourceId) : Option String :=
  match rs with
  | [] => none
  | r :: rs' =>
    match lastSpec rs' k with
    | some v => some v
    | none => if k = r.id then some r.spec else none

/-- An operation issued to the cluster writer: an apply (create-or-update)
of one resource, or a delete of one identifier. -/
inductive ClusterOp where
  | applyOp (r : Resource)
  | deleteOp (k : ResourceId)
  deriving DecidableEq, Repr

/-- The trace of cluster-writer operations one `reconcile_resources` pass
issues for a desired set: one apply per resource, nothing else
(`_manifest_charm_extension.py` line 125 is the only write). -/
def reconcile_ops (rs : List Resource) : List ClusterOp :=
  rs.map ClusterOp.applyOp

/-- The state behaviour of a successful `reconcile_resources(resources)`
pass (`_manifest_charm_extension.py`, lines 108-142): the desired set is
handed to the cluster writer's `apply_many` and the pass succeeds. -/
def reconcile_resources_apply (s : ClusterState) (rs : List Resource) :
    ClusterState × ReconcileOutcome :=
  (apply_many s rs, ReconcileOutcome.success)

/-- Every severity is at most that of Blocked. -/
theorem severity_le_three (v : CharmStatus) : severity v ≤ 3 := by
  cases v <;> simp [severity]

/-- One-step unfolding of `worstOf` on a cons cell. -/
theorem worstOf_cons (v : CharmStatus) (vs : List CharmStatus) :
    worstOf (v :: vs) =
      if severity v < severity (worstOf vs) then worstOf vs else v := rfl

/-- Every element of a verdict list has severity at most that of the worst
verdict. -/
theorem worstOf_le (vs : List CharmStatus) :
    ∀ u ∈ vs, severity u ≤ severity (worstOf vs) := by
  induction vs with
  | nil => intro u hu; cases hu
  | cons v vs ih =>
    intro u hu
    rw [worstOf_cons]
    rcases List.mem_cons.mp hu with rfl | hu'
    · by_cases h : severity u < severity (worstOf vs)
      · rw [if_pos h]; exact Nat.le_of_lt h
      · rw [if_neg h]
    · by_cases h : severity v < severity (worstOf vs)
      · rw [if_pos h]; exact ih u hu'
      · rw [if_neg h]
        exact Nat.le_trans (ih u hu') (Nat.le_of_not_lt h)

/-- The worst verdict of a non-empty list is an element of the list. -/
theorem worstOf_mem (v : CharmStatus) (vs : List CharmStatus) :
    worstOf (v :: vs) ∈ v :: vs := by
  induction vs generalizing v with
  | nil => simp [worstOf, severity]
  | cons v' vs' ih =>
    rw [worstOf_cons]
    by_cases h : severity v < severity (worstOf (v' :: vs'))
    · rw [if_pos h]
      exact List.mem_cons_of_mem v (ih v')
    · rw [if_neg h]
      exact List.mem_cons_self v _

/-- The worst verdict is the first occurrence of its severity: everything
strictly before it in the list is strictly less severe. -/
theorem worstOf_first (vs : List CharmStatus) (h : vs ≠ []) :
    ∃ l r, vs = l ++ worstOf vs :: r ∧
      ∀ u ∈ l, severity u < severity (worstOf vs) := by
  induction vs with
  | nil => exact absurd rfl h
  | cons v vs ih =>
    by_cases hlt : severity v < severity (worstOf vs)
    · have hvs : vs ≠ [] := by
        intro he
        subst he
        simp [worstOf, severity] at hlt
      obtain ⟨l, r, hsplit, hpre⟩ := ih hvs
      have hw : worstOf (v :: vs) = worstOf vs := by
        rw [worstOf_cons, if_pos hlt]
      refine ⟨v :: l, r, ?_, ?_⟩
      · rw [hw, List.cons_append]
        exact congrArg (List.cons v) hsplit
      · intro u hu
        rw [hw]
        rcases List.mem_cons.mp hu with rfl | hu'
        · exact hlt
        · exact hpre u hu'
    · have hw : worstOf (v :: vs) = v := by
        simp only [worstOf]
        rw [if_neg hlt]
      refine ⟨[], vs, ?_, ?_⟩
      · rw [hw]
        rfl
      · intro u hu
        cases hu

/-- The worst verdict is Healthy exactly when the list is empty or every
element is Healthy. -/
theorem worstOf_healthy_iff (vs : List CharmStatus) :
    severity (worstOf vs) = 0 ↔ vs = [] ∨ ∀ v ∈ vs, severity v = 0 := by
  constructor
  · intro h0
    cases vs with
    | nil => exact Or.inl rfl
    | cons v vs' =>
      refine Or.inr fun u hu => Nat.le_zero.mp ?_
      calc severity u ≤ severity (worstOf (v :: vs')) := worstOf_le _ u hu
        _ = 0 := h0
  · rintro (rfl | hall)
    · simp [worstOf, severity]
    · cases vs with
      | nil => simp [worstOf, severity]
      | cons v vs' => exact hall _ (worstOf_mem v vs')

/-- `get_first_worst_error` returns `none` only on the empty list. -/
theorem gfw_none (errs : List ErrorWithStatus)
    (h : get_first_worst_error errs = none) : errs = [] := by
  cases errs with
  | nil => rfl
  | cons e es =>
    exfalso
    cases hes : get_first_worst_error es with
    | none => simp [get_first_worst_error, hes] at h
    | some w =>
      simp only [get_first_worst_error, hes] at h
      by_cases hc : severity e.status < severity w.status
      · rw [if_pos hc] at h
        exact Option.noConfusion h
      · rw [if_neg hc] at h
        exact Option.noConfusion h

/-- `get_first_worst_error` returns the first error of maximal severity:
the list splits around the returned error, everything before it is strictly
less severe, and nothing in the list is more severe. -/
theorem gfw_first (errs : List ErrorWithStatus) (w : ErrorWithStatus)
    (h : get_first_worst_error errs = some w) :
    ∃ l r, errs = l ++ w :: r ∧
      (∀ u ∈ l, severity u.status < severity w.status) ∧
      ∀ u ∈ errs, severity u.status ≤ severity w.status := by
  induction errs generalizing w with
  | nil => cases h
  | cons e es ih =>
    cases hes : get_first_worst_error es with
    | none =>
      have hnil : es = [] := gfw_none es hes
      subst hnil
      have he : e = w := by
        simpa [get_first_worst_error] using h
      subst he
      refine ⟨[], [], rfl, ?_, ?_⟩
      · intro u hu
        cases hu
      · intro u hu
        rcases List.mem_cons.mp hu with rfl | hu'
        · exact Nat.le_refl _
        · cases hu'
    | some w' =>
      by_cases hc : severity e.status < severity w'.status
      · have hww : w = w' := by
          simp only [get_first_worst_error, hes] at h
          rw [if_pos hc] at h
          exact (Option.some.inj h).symm
        subst hww
        obtain ⟨l, r, hsplit, hpre, hub⟩ := ih w hes
        refine ⟨e :: l, r, ?_, ?_, ?_⟩
        · rw [List.cons_append]
          exact congrArg (List.cons e) hsplit
        · intro u hu
          rcases List.mem_cons.mp hu with rfl | hu'
          · exact hc
          · exact hpre u hu'
        · intro u hu
          rcases List.mem_cons.mp hu with rfl | hu'
          · exact Nat.le_of_lt hc
          · exact hub u hu'
      · have hwe : w = e := by
          simp only [get_first_worst_error, hes] at h
          rw [if_neg hc] at h
          exact (Option.some.inj h).symm
        subst hwe
        obtain ⟨l, r, hsplit, hpre, hub⟩ := ih w' hes
        refine ⟨[], es, rfl, ?_, ?_⟩
        · intro u hu
          cases hu
        · intro u hu
          rcases List.mem_cons.mp hu with rfl | hu'
          · exact Nat.le_refl _
          · exact Nat.le_trans (hub u hu') (Nat.le_of_not_lt hc)

/-- A list of options that are all `none` filters to the empty list. -/
theorem filterMap_id_eq_nil {α : Type} (l : List (Option α))
    (h : l.all Option.isNone = true) : l.filterMap id = [] := by
  induction l with
  | nil => rfl
  | cons o l ih =>
    simp only [List.all_cons, Bool.and_eq_true] at h
    cases o with
    | none => simpa using ih h.2
    | some a => simp [Option.isNone] at h

/-- The value `apply_many` leaves at an identifier: the specification of the
last desired resource carrying it, or the prior state when no desired
resource carries it. -/
theorem apply_many_lookup (rs : List Resource) (s : ClusterState)
    (k : ResourceId) :
    apply_many s rs k = (lastSpec rs k).or (s k) := by
  induction rs generalizing s with
  | nil => rfl
  | cons r rs ih =>
    show apply_many (applyOne s r) rs k = (lastSpec (r :: rs) k).or (s k)
    rw [ih]
    simp only [lastSpec, applyOne]
    cases hls : lastSpec rs k with
    | some v => simp [Option.or]
    | none =>
      by_cases hk : k = r.id
      · simp [Option.or, if_pos hk]
      · simp [Option.or, if_neg hk]

/-- An identifier carried by no desired resource has no `lastSpec`. -/
theorem lastSpec_eq_none (rs : List Resource) (k : ResourceId)
    (h : k ∉ rs.map Resource.id) : lastSpec rs k = none := by
  induction rs with
  | nil => rfl
  | cons r rs ih =>
    simp only [List.map_cons, List.mem_cons] at h
    push_neg at h
    simp only [lastSpec, ih h.2]
    rw [if_neg h.1]

/-- C1: the worst-verdict reduction returns Healthy iff the sequence is
empty or every element is Healthy; otherwise it returns the maximum element
under Healthy < Waiting < Maintenance < Blocked, breaking ties by the first
occurrence in input order (the list splits around the result with strictly
less severe elements before it and nothing more severe anywhere); the same
first-worst property holds for `get_first_worst_error` as consumed by
`resource_status`; and all non-Healthy causes are retained in the status
pass's cause list. -/
theorem worst_verdict_reduction (vs : List CharmStatus) :
    (severity (worstOf vs) = 0 ↔ vs = [] ∨ ∀ v ∈ vs, severity v = 0) ∧
    (vs ≠ [] → ∃ l r, vs = l ++ worstOf vs :: r ∧
      ∀ u ∈ l, severity u < severity (worstOf vs)) ∧
    (∀ u ∈ vs, severity u ≤ severity (worstOf vs)) ∧
    (∀ errs w, get_first_worst_error errs = some w →
      ∃ l r, errs = l ++ w :: r ∧
        (∀ u ∈ l, severity u.status < severity w.status) ∧
        ∀ u ∈ errs, severity u.status ≤ severity w.status) ∧
    (∀ outcomes, (resource_status true outcomes).causes =
      (check_resources outcomes).2.filterMap id) := by
  refine ⟨worstOf_healthy_iff vs, worstOf_first vs, worstOf_le vs, gfw_first, ?_⟩
  intro outcomes
  by_cases hok : (check_resources outcomes).1 = true
  · have hnil : (check_resources outcomes).2.filterMap id = [] :=
      filterMap_id_eq_nil _ hok
    simp [resource_status, is_leader, hok, hnil]
  · simp [resource_status, is_leader, hok]

/-- Witness for C1: the first-worst decomposition at a concrete two-verdict
list and the `get_first_worst_error` decomposition at a concrete singleton
error list. -/
theorem worst_verdict_reduction_witness :
    (∃ l r, [WaitingStatus "w", BlockedStatus "b"] =
        l ++ worstOf [WaitingStatus "w", BlockedStatus "b"] :: r ∧
      ∀ u ∈ l, severity u <
        severity (worstOf [WaitingStatus "w", BlockedStatus "b"])) ∧
    (∃ l r, [ErrorWithStatus.ofAny "a" WaitingStatus] =
        l ++ ErrorWithStatus.ofAny "a" WaitingStatus :: r ∧
      (∀ u ∈ l, severity u.status <
        severity (ErrorWithStatus.ofAny "a" WaitingStatus).status) ∧
      ∀ u ∈ [ErrorWithStatus.ofAny "a" WaitingStatus],
        severity u.status ≤
          severity (ErrorWithStatus.ofAny "a" WaitingStatus).status) :=
  ⟨(worst_verdict_reduction [WaitingStatus "w", BlockedStatus "b"]).2.1
      (by simp),
   (worst_verdict_reduction []).2.2.2.1
      [ErrorWithStatus.ofAny "a" WaitingStatus]
      (ErrorWithStatus.ofAny "a" WaitingStatus) rfl⟩

/-- C2: when the cluster writer's apply fails with a 403 authorization
denial, `reconcile_resources` fails with a status-bearing `ReconcileError`
whose verdict is Blocked and whose cause is the fixed non-empty remediation
message; when it fails with any other code the original `ApiError` is
re-raised unchanged. -/
theorem reconcile_auth_relabel (e : ApiError) :
    (e.code = 403 →
      reconcile_resources (some e) =
        ReconcileOutcome.reconcileError
          (ReconcileError reconcile_remediation_msg BlockedStatus) ∧
      (ReconcileError reconcile_remediation_msg BlockedStatus).status =
        CharmStatus.blocked reconcile_remediation_msg ∧
      reconcile_remediation_msg ≠ "") ∧
    (e.code ≠ 403 →
      reconcile_resources (some e) = ReconcileOutcome.apiError e) := by
  constructor
  · intro h
    refine ⟨?_, rfl, by decide⟩
    simp [reconcile_resources, h]
  · intro h
    simp [reconcile_resources, h]

/-- Witness for C2: the relabelling at a concrete 403 error and the
propagation at a concrete 500 error. -/
theorem reconcile_auth_relabel_witness :
    reconcile_resources (some ⟨403, "forbidden"⟩) =
      ReconcileOutcome.reconcileError
        (ReconcileError reconcile_remediation_msg BlockedStatus) ∧
    reconcile_resources (some ⟨500, "boom"⟩) =
      ReconcileOutcome.apiError ⟨500, "boom"⟩ :=
  ⟨((reconcile_auth_relabel ⟨403, "forbidden"⟩).1 rfl).1,
   (reconcile_auth_relabel ⟨500, "boom"⟩).2 (by decide)⟩

/-- C3: on a non-leader unit `resource_status` returns the Waiting status
immediately (the raised `LeadershipError` is recovered locally, so the pass
never propagates an exception — `resource_status` is total), with no causes
and with neither the rendering collaborator nor the cluster-reading
collaborator invoked. -/
theorem resource_status_non_leader (outcomes : List CheckOutcome) :
    resource_status false outcomes =
      ⟨CharmStatus.waiting "Waiting for leadership", [], 0, 0⟩ := rfl

/-- C4: when the check of some individual resource fails with a transport
error, the aggregation consumed by `resource_status` still completes: the
cause list covers the causes of the resources before and after the failed
one, the failed resource is recorded as a Blocked-level
could-not-determine-status cause in its input position, and the pass still
returns a verdict (of Blocked severity, the maximum). -/
theorem aggregation_partial_failure (pre post : List CheckOutcome)
    (c : String) :
    (resource_status true
        (pre ++ CheckOutcome.transportError c :: post)).causes =
      (pre.map outcome_to_error).filterMap id ++
        ErrorWithStatus.ofAny (c ++ ": could not determine status")
            BlockedStatus ::
          (post.map outcome_to_error).filterMap id ∧
    severity (resource_status true
        (pre ++ CheckOutcome.transportError c :: post)).status = 3 := by
  have herrs : (check_resources
      (pre ++ CheckOutcome.transportError c :: post)).2.filterMap id =
      (pre.map outcome_to_error).filterMap id ++
        ErrorWithStatus.ofAny (c ++ ": could not determine status")
            BlockedStatus ::
          (post.map outcome_to_error).filterMap id := by
    simp [check_resources, outcome_to_error, List.filterMap_append]
  have hok : (check_resources
      (pre ++ CheckOutcome.transportError c :: post)).1 = false := by
    simp [check_resources, outcome_to_error, Option.isNone]
  have hmem : ErrorWithStatus.ofAny (c ++ ": could not determine status")
      BlockedStatus ∈
      (check_resources
        (pre ++ CheckOutcome.transportError c :: post)).2.filterMap id := by
    rw [herrs]
    exact List.mem_append_right _ (List.mem_cons_self _ _)
  constructor
  · rw [← herrs]
    simp [resource_status, is_leader, hok]
  · have hstatus : (resource_status true
        (pre ++ CheckOutcome.transportError c :: post)).status =
        match get_first_worst_error ((check_resources
          (pre ++ CheckOutcome.transportError c :: post)).2.filterMap id) with
        | some w => w.status
        | none => ActiveStatus "" := by
      simp [resource_status, is_leader, hok]
    rw [hstatus]
    cases hw : get_first_worst_error ((check_resources
        (pre ++ CheckOutcome.transportError c :: post)).2.filterMap id) with
    | none =>
      exfalso
      rw [gfw_none _ hw] at hmem
      cases hmem
    | some w =>
      obtain ⟨_, _, _, _, hub⟩ := gfw_first _ w hw
      have h3 : 3 ≤ severity w.status := hub _ hmem
      exact Nat.le_antisymm (severity_le_three _) h3

/-- C5: applying the same desired resource set twice in succession through
`reconcile_resources` succeeds on the second call with no error and leaves
the cluster state after the second call identical to the state after the
first. -/
theorem reconcile_idempotent (s : ClusterState) (rs : List Resource) :
    (reconcile_resources_apply (reconcile_resources_apply s rs).1 rs).2 =
      ReconcileOutcome.success ∧
    (reconcile_resources_apply (reconcile_resources_apply s rs).1 rs).1 =
      (reconcile_resources_apply s rs).1 := by
  refine ⟨rfl, ?_⟩
  show apply_many (apply_many s rs) rs = apply_many s rs
  funext k
  simp only [apply_many_lookup]
  cases lastSpec rs k <;> simp [Option.or]

/-- C6: a `reconcile_resources` pass performs only create-or-update
operations: every cluster object whose identifier is not in the desired set
is left unchanged, and every operation issued to the cluster writer is an
apply, never a delete. -/
theorem reconcile_frame (s : ClusterState) (rs : List Resource)
    (k : ResourceId) (h : k ∉ rs.map Resource.id) :
    (reconcile_resources_apply s rs).1 k = s k ∧
    ∀ op ∈ reconcile_ops rs, ∃ r, op = ClusterOp.applyOp r := by
  constructor
  · show apply_many s rs k = s k
    rw [apply_many_lookup, lastSpec_eq_none rs k h]
    rfl
  · intro op hop
    rw [reconcile_ops, List.mem_map] at hop
    obtain ⟨r, _, rfl⟩ := hop
    exact ⟨r, rfl⟩

/-- Witness for C6: a pass applying one Deployment leaves an unrelated
Service identifier unchanged and issues only apply operations. -/
theorem reconcile_frame_witness :
    (reconcile_resources_apply (fun _ => none)
        [⟨⟨"Deployment", none, "web"⟩, "spec"⟩]).1
        ⟨"Service", none, "svc"⟩ =
      (fun _ => (none : Option String)) (⟨"Service", none, "svc"⟩ : ResourceId) ∧
    ∀ op ∈ reconcile_ops [⟨⟨"Deployment", none, "web"⟩, "spec"⟩],
      ∃ r, op = ClusterOp.applyOp r :=
  reconcile_frame (fun _ => none) [⟨⟨"Deployment", none, "web"⟩, "spec"⟩]
    ⟨"Service", none, "svc"⟩ (by decide)

/-- C7 counterexample: a `LeadershipError` constructed with an explicit
`BlockedStatus` has a Blocked status rather than a Waiting one, so not
every instance of `LeadershipError` carries a `WaitingStatus`. -/
theorem leadership_error_counterexample :
    CharmStatus.isWaiting (LeadershipError "x" BlockedStatus).status = false ∧
    (LeadershipError "x" BlockedStatus).status = CharmStatus.blocked "x" :=
  ⟨rfl, rfl⟩

/-- C7 (amended): every `LeadershipError` built with the default
`status_type` (`WaitingStatus`) — in particular the defaulted instance that
`is_leader` raises — has a `WaitingStatus` carrying its message. -/
theorem leadership_error_default_waiting (msg : String) :
    (LeadershipError msg WaitingStatus).status = CharmStatus.waiting msg ∧
    LeadershipError.default.status =
      CharmStatus.waiting "Waiting for leadership" :=
  ⟨rfl, rfl⟩

/-- C8 counterexample: with its default `raise_if_not_leader=True`,
`is_leader` on a non-leader unit raises `LeadershipError` instead of
returning the boolean False. -/
theorem is_leader_raises_counterexample :
    exceptRaised (is_leader false true) = true ∧
    is_leader false true = Except.error LeadershipError.default :=
  ⟨rfl, rfl⟩

/-- C8 (amended): `is_leader` returns True whenever the unit is the leader;
on a non-leader unit it raises `LeadershipError` under the default
`raise_if_not_leader=True` and returns False only when
`raise_if_not_leader` is False. -/
theorem is_leader_boolean_or_raise :
    is_leader true true = Except.ok true ∧
    is_leader true false = Except.ok true ∧
    is_leader false false = Except.ok false ∧
    is_leader false true = Except.error LeadershipError.default :=
  ⟨rfl, rfl, rfl, rfl⟩

/-- C9: on the leader, when every resource check passes, `resource_status`
returns `ActiveStatus()` with an empty cause list (and one invocation each
of the rendering and reading collaborators). -/
theorem resource_status_all_healthy (outcomes : List CheckOutcome)
    (h : ∀ o ∈ outcomes, o = CheckOutcome.ok) :
    resource_status true outcomes = ⟨ActiveStatus "", [], 1, 1⟩ := by
  have hall : (check_resources outcomes).1 = true := by
    simp only [check_resources, List.all_eq_true]
    intro o ho
    rw [List.mem_map] at ho
    obtain ⟨x, hx, rfl⟩ := ho
    rw [h x hx]
    rfl
  simp [resource_status, is_leader, hall]

/-- Witness for C9: a fully healthy two-resource pass is Active with no
causes. -/
theorem resource_status_all_healthy_witness :
    resource_status true [CheckOutcome.ok, CheckOutcome.ok] =
      ⟨ActiveStatus "", [], 1, 1⟩ :=
  resource_status_all_healthy [CheckOutcome.ok, CheckOutcome.ok] (by decide)

/-- C10: constructing `ErrorWithStatus(msg, T)` stores exactly `str(msg)` as
both the base exception message and the `msg` attribute, and its `status`
property is `T` applied to that same string, with `msg` coerced through
`str` even when a non-string is passed. -/
theorem error_with_status_fields {α : Type} [ToString α] (m : α)
    (T : String → CharmStatus) :
    (ErrorWithStatus.ofAny m T).excMessage = toString m ∧
    (ErrorWithStatus.ofAny m T).msg = toString m ∧
    (ErrorWithStatus.ofAny m T).status = T (toString m) :=
  ⟨rfl, rfl, rfl⟩

/-- Witness for C10: a non-string (natural number) message is coerced to
its string form in all three places. -/
theorem error_with_status_fields_witness :
    (ErrorWithStatus.ofAny (42 : Nat) BlockedStatus).excMessage = "42" ∧
    (ErrorWithStatus.ofAny (42 : Nat) BlockedStatus).msg = "42" ∧
    (ErrorWithStatus.ofAny (42 : Nat) BlockedStatus).status =
      BlockedStatus "42" :=
  error_with_status_fields (42 : Nat) BlockedStatus

end CharmedKubeflowHelpers
